import Mathlib

/-!
Verification of the openclaw-mem0 memory server (shallow embedding).

The definitions below are translated from the repository sources:
  - server/index.ts        (route handlers, request schemas, isValidUUID)
  - server/infrastructure.ts (buildMustFilter, scrollPoints page cap,
                              extractFacts parsing policy)
JavaScript strings are modelled as Lean String (code-unit subtleties of
UTF-16 are not load-bearing for any claim here), JSON numbers as Int,
and the two unreliable external services (embedding provider, vector
backend) as explicit oracle functions passed to the handlers.
-/

namespace OpenclawMem0

/-! ### A model of JSON values

JSON.parse results are modelled by this inductive type.  Object fields
keep their textual order, which is what Object.values iterates in. -/

inductive Json where
  | null : Json
  | bool (b : Bool) : Json
  | num (n : Int) : Json
  | str (s : String) : Json
  | arr (elems : List Json) : Json
  | obj (fields : List (String × Json)) : Json

/-! ### extractFacts (server/infrastructure.ts lines 267-319)

The generation call either fails (network error, non-2xx HTTP status,
or response-schema decode failure - all collapsed by the source into an
OllamaError that the final catchAll absorbs) or yields the response
string.  `GenOutcome.ok none` models a response string that JSON.parse
rejects; `GenOutcome.ok (some v)` models a successful parse to `v`. -/

inductive GenOutcome where
  | transportFail (msg : String) : GenOutcome
  | httpFail (status : Nat) : GenOutcome
  | decodeFail (msg : String) : GenOutcome
  | ok (parsed : Option Json) : GenOutcome

/-- The fallback of extractFacts: the first 500 characters of the
original conversation text, as the sole extracted fact
(`[messages.slice(0, 500)]` in the source). -/
def fallbackFacts (messages : String) : List String :=
  [messages.take 500]

/-- `Object.values(parsed).find(Array.isArray)` over the fields of a
JSON object: the value of the first array-valued field, if any. -/
def firstArrayField : List (String × Json) → Option (List Json)
  | [] => none
  | (_, Json.arr xs) :: _ => some xs
  | _ :: rest => firstArrayField rest

/-- The parsing step of extractFacts (infrastructure.ts lines 295-306).
  - a JSON array is filtered to non-empty strings;
  - otherwise Object.values(parsed).find(Array.isArray) is consulted and,
    when an array-valued field exists, that array is filtered to strings;
  - every other shape falls back to the 500-character slice.  (For
    `null` the source throws in Object.values and the throw is caught by
    the surrounding Effect.try, which the outer catchAll also turns into
    the same fallback, so the observable result is identical.) -/
def parseFacts (messages : String) (parsed : Json) : List String :=
  match parsed with
  | Json.arr elems =>
      elems.filterMap fun j =>
        match j with
        | Json.str s => if s.trim.length > 0 then some s else none
        | _ => none
  | Json.obj fields =>
      match firstArrayField fields with
      | some xs =>
          xs.filterMap fun j =>
            match j with
            | Json.str s => some s
            | _ => none
      | none => fallbackFacts messages
  | _ => fallbackFacts messages

/-- extractFacts, composed with the outer `Effect.catchAll` that maps
every failure of the generation pipeline to the fallback
(infrastructure.ts lines 312-318). -/
def extractFacts (messages : String) : GenOutcome → List String
  | GenOutcome.transportFail _ => fallbackFacts messages
  | GenOutcome.httpFail _ => fallbackFacts messages
  | GenOutcome.decodeFail _ => fallbackFacts messages
  | GenOutcome.ok none => fallbackFacts messages
  | GenOutcome.ok (some parsed) => parseFacts messages parsed

/-- The parsing policy exactly as claim C4 words it: an object
contributes its array only when it has EXACTLY ONE array-valued field;
zero or several array-valued fields fall back. -/
def parseFactsClaimC4 (messages : String) (parsed : Json) : List String :=
  match parsed with
  | Json.arr elems =>
      elems.filterMap fun j =>
        match j with
        | Json.str s => if s.trim.length > 0 then some s else none
        | _ => none
  | Json.obj fields =>
      match fields.filterMap (fun kv =>
          match kv.2 with
          | Json.arr xs => some xs
          | _ => none) with
      | [xs] =>
          xs.filterMap fun j =>
            match j with
            | Json.str s => some s
            | _ => none
      | _ => fallbackFacts messages
  | _ => fallbackFacts messages

/-- The amended policy: an object contributes the FIRST of its
array-valued fields when at least one exists, and falls back only when
it has none. -/
def parseFactsAmended (messages : String) (parsed : Json) : List String :=
  match parsed with
  | Json.arr elems =>
      elems.filterMap fun j =>
        match j with
        | Json.str s => if s.trim.length > 0 then some s else none
        | _ => none
  | Json.obj fields =>
      match (fields.filterMap (fun kv =>
          match kv.2 with
          | Json.arr xs => some xs
          | _ => none)).head? with
      | some xs =>
          xs.filterMap fun j =>
            match j with
            | Json.str s => some s
            | _ => none
      | none => fallbackFacts messages
  | _ => fallbackFacts messages

lemma firstArrayField_eq_head? (fields : List (String × Json)) :
    firstArrayField fields
      = (fields.filterMap (fun kv =>
          match kv.2 with
          | Json.arr xs => some xs
          | _ => none)).head? := by
  induction fields with
  | nil => rfl
  | cons kv rest ih =>
      obtain ⟨k, v⟩ := kv
      cases v <;> simp [firstArrayField, List.filterMap_cons, ih]

/-- Claim C3: extractFacts is total (it is a plain function into
`List String`); whenever the generation transport fails, the HTTP
response is an error, the response fails to decode, or the returned
response string is not valid JSON, the result is exactly one fact equal
to the first 500 characters of the conversation text. -/
theorem extractFacts_failure_fallback (messages failMsg : String)
    (status : Nat) :
    extractFacts messages (GenOutcome.transportFail failMsg)
        = [messages.take 500]
    ∧ extractFacts messages (GenOutcome.httpFail status)
        = [messages.take 500]
    ∧ extractFacts messages (GenOutcome.decodeFail failMsg)
        = [messages.take 500]
    ∧ extractFacts messages (GenOutcome.ok none) = [messages.take 500]
    ∧ (extractFacts messages (GenOutcome.ok none)).length = 1 := by
  refine ⟨rfl, rfl, rfl, rfl, rfl⟩

/-- Claim C4, counterexample: on an object with TWO array-valued fields
the code returns the first array (filtered to strings) rather than the
claimed fallback; the claimed policy disagrees with the code there. -/
theorem parseFacts_two_array_fields_uses_first :
    parseFacts "hello"
        (Json.obj [("a", Json.arr [Json.str "x"]),
                   ("b", Json.arr [Json.str "y"])])
      = ["x"]
    ∧ parseFactsClaimC4 "hello"
        (Json.obj [("a", Json.arr [Json.str "x"]),
                   ("b", Json.arr [Json.str "y"])])
      = ["hello"]
    ∧ (["x"] : List String) ≠ ["hello"] := by
  have h : "hello".take 500 = "hello" := by
    rw [String.take_eq, List.take_of_length_le (by decide)]
  refine ⟨rfl, ?_, by decide⟩
  show fallbackFacts "hello" = ["hello"]
  show ["hello".take 500] = ["hello"]
  rw [h]

/-- Claim C4 (amended): the three-step policy holds with the object
step reading the FIRST array-valued field (not requiring exactly one):
a JSON array is filtered to non-empty strings; an object with at least
one array-valued field yields its first such array filtered to strings;
every other shape (including objects with no array-valued field) yields
the single 500-character fallback fact. -/
theorem parseFacts_follows_amended_policy (messages : String)
    (parsed : Json) :
    parseFacts messages parsed = parseFactsAmended messages parsed := by
  cases parsed with
  | obj fields =>
      simp only [parseFacts, parseFactsAmended, firstArrayField_eq_head?]
  | null => rfl
  | bool b => rfl
  | num n => rfl
  | str s => rfl
  | arr elems => rfl

/-! ### handleAdd, storage phase (server/index.ts lines 397-463)

After validation, handleAdd runs extractFacts and, for a non-empty fact
list, runs one embed-then-upsert pipeline per fact; each pipeline's
failure is caught by its own catchAll and turned into `null`
(`Option.none` here).  The per-fact success of the two external calls
is modelled by a `Bool` list and the ids produced by crypto.randomUUID
by a `String` list, both aligned with the fact list. -/

structure AddResult where
  id : String
  memory : String
  event : String
deriving DecidableEq, Repr

/-- Wire body of a 200 /add response.  `failed = none` models the
`failed` key being absent from the JSON object. -/
structure AddResponseBody where
  results : List AddResult
  failed : Option Nat
deriving DecidableEq, Repr

/-- The payload upserted for one fact (index.ts lines 421-425): only
`memory`, `user_id` and `created_at`, with `now` computed once per
request before the loop. -/
def addPayload (fact userId now : String) : List (String × String) :=
  [("memory", fact), ("user_id", userId), ("created_at", now)]

/-- `Effect.forEach` over the facts: each pipeline yields
`some (AddResult id fact "ADD")` on success and `none` when its
catchAll absorbed an embed or upsert failure (index.ts lines 413-438). -/
def pipelineResults : List String → List Bool → List String → List (Option AddResult)
  | fact :: facts, ok :: oks, pid :: ids =>
      (if ok then some (AddResult.mk pid fact "ADD") else none)
        :: pipelineResults facts oks ids
  | _, _, _ => []

/-- The response body built by handleAdd after extraction
(index.ts lines 402-443): the zero-facts path returns
`results [] , failed 0`; otherwise the successes are kept and the
`failed` key is spread in only when the failure count is positive. -/
def handleAddFacts (facts : List String) (oks : List Bool)
    (ids : List String) : AddResponseBody :=
  if facts.isEmpty then AddResponseBody.mk [] (some 0)
  else
    let rs := pipelineResults facts oks ids
    let stored := rs.filterMap (fun r => r)
    let failedCount := rs.length - stored.length
    AddResponseBody.mk stored
      (if failedCount > 0 then some failedCount else none)

/-- Both add paths wrap their body in `json(...)`, whose default status
is 200 (index.ts lines 103-108). -/
def handleAddStored (facts : List String) (oks : List Bool)
    (ids : List String) : Nat × AddResponseBody :=
  (200, handleAddFacts facts oks ids)

lemma count_true_add_count_false (l : List Bool) :
    l.count true + l.count false = l.length := by
  induction l with
  | nil => rfl
  | cons b rest ih => cases b <;> simp [List.count_cons] <;> omega

lemma pipelineResults_length (facts : List String) (oks : List Bool)
    (ids : List String) (hoks : oks.length = facts.length)
    (hids : ids.length = facts.length) :
    (pipelineResults facts oks ids).length = facts.length := by
  induction facts generalizing oks ids with
  | nil => cases oks <;> cases ids <;> rfl
  | cons f fs ih =>
      cases oks with
      | nil => simp at hoks
      | cons o os =>
          cases ids with
          | nil => simp at hids
          | cons i is =>
              simp only [pipelineResults, List.length_cons] at *
              exact congrArg (· + 1) (ih os is (by omega) (by omega))

lemma pipelineResults_stored_length (facts : List String)
    (oks : List Bool) (ids : List String)
    (hoks : oks.length = facts.length)
    (hids : ids.length = facts.length) :
    ((pipelineResults facts oks ids).filterMap (fun r => r)).length
      = oks.count true := by
  induction facts generalizing oks ids with
  | nil =>
      cases oks with
      | nil => rfl
      | cons o os => simp at hoks
  | cons f fs ih =>
      cases oks with
      | nil => simp at hoks
      | cons o os =>
          cases ids with
          | nil => simp at hids
          | cons i is =>
              have ihx := ih os is (by simpa using hoks) (by simpa using hids)
              cases o <;>
                simp [pipelineResults, List.filterMap_cons, List.count_cons,
                  ihx]

lemma pipelineResults_mem_of_ok (facts : List String) (oks : List Bool)
    (ids : List String) (hoks : oks.length = facts.length)
    (hids : ids.length = facts.length) :
    ∀ i, i < facts.length → oks.getD i false = true →
      AddResult.mk (ids.getD i "") (facts.getD i "") "ADD"
        ∈ (pipelineResults facts oks ids).filterMap (fun r => r) := by
  induction facts generalizing oks ids with
  | nil => intro i hi; simp at hi
  | cons f fs ih =>
      intro i hi hok
      cases oks with
      | nil => simp at hoks
      | cons o os =>
          cases ids with
          | nil => simp at hids
          | cons pid is =>
              cases i with
              | zero =>
                  simp only [List.getD_cons_zero] at hok
                  subst hok
                  simp [pipelineResults, List.filterMap_cons]
              | succ j =>
                  have hmem := ih os is (by simpa using hoks)
                    (by simpa using hids) j (by simpa using hi)
                    (by simpa using hok)
                  simp only [List.getD_cons_succ]
                  have hsub : List.Sublist
                      ((pipelineResults fs os is).filterMap (fun r => r))
                      ((pipelineResults (f :: fs) (o :: os) (pid :: is)).filterMap
                          (fun r => r)) := by
                    simp only [pipelineResults]
                    exact (List.sublist_cons_self _ _).filterMap _
                  exact hsub.subset hmem

lemma handleAddFacts_ne_nil (facts : List String) (oks : List Bool)
    (ids : List String) (h : facts ≠ []) :
    (handleAddFacts facts oks ids).results
        = (pipelineResults facts oks ids).filterMap (fun r => r)
    ∧ (handleAddFacts facts oks ids).failed
        = (if (pipelineResults facts oks ids).length
              - ((pipelineResults facts oks ids).filterMap (fun r => r)).length > 0
           then some ((pipelineResults facts oks ids).length
              - ((pipelineResults facts oks ids).filterMap (fun r => r)).length)
           else none) := by
  unfold handleAddFacts
  rw [if_neg (by simp [h])]
  exact ⟨rfl, rfl⟩

/-- Claim C1: for an add request whose extraction yields N >= 1 facts,
with exactly K per-fact pipelines failing, handleAdd returns HTTP 200,
its results list has length N-K, its failed count (an absent key read
as 0) is K, the two sum to N, and every fact whose pipeline succeeded
appears in the results - a failing sibling never removes it. -/
theorem handleAdd_partial_failure_accounting
    (facts : List String) (oks : List Bool) (ids : List String)
    (hfacts : 0 < facts.length)
    (hoks : oks.length = facts.length) (hids : ids.length = facts.length) :
    (handleAddStored facts oks ids).1 = 200
    ∧ (handleAddStored facts oks ids).2.results.length + oks.count false
        = facts.length
    ∧ (handleAddStored facts oks ids).2.results.length
        = facts.length - oks.count false
    ∧ (handleAddStored facts oks ids).2.failed.getD 0 = oks.count false
    ∧ (∀ i, i < facts.length → oks.getD i false = true →
        AddResult.mk (ids.getD i "") (facts.getD i "") "ADD"
          ∈ (handleAddStored facts oks ids).2.results) := by
  have hne : facts ≠ [] := by
    intro h0
    rw [h0] at hfacts
    simp at hfacts
  obtain ⟨hres, hfail⟩ := handleAddFacts_ne_nil facts oks ids hne
  have hrs := pipelineResults_length facts oks ids hoks hids
  have hst := pipelineResults_stored_length facts oks ids hoks hids
  have hcnt := count_true_add_count_false oks
  have hfc : (pipelineResults facts oks ids).length
      - ((pipelineResults facts oks ids).filterMap (fun r => r)).length
      = oks.count false := by omega
  refine ⟨rfl, ?_, ?_, ?_, ?_⟩
  · show (handleAddFacts facts oks ids).results.length + oks.count false
        = facts.length
    rw [hres, hst]
    omega
  · show (handleAddFacts facts oks ids).results.length
        = facts.length - oks.count false
    rw [hres, hst]
    omega
  · show (handleAddFacts facts oks ids).failed.getD 0 = oks.count false
    rw [hfail, hfc]
    rcases Nat.eq_zero_or_pos (oks.count false) with hz | hp
    · simp [hz]
    · rw [if_pos hp]
      rfl
  · intro i hi hok
    show AddResult.mk (ids.getD i "") (facts.getD i "") "ADD"
        ∈ (handleAddFacts facts oks ids).results
    rw [hres]
    exact pipelineResults_mem_of_ok facts oks ids hoks hids i hi hok

/-- Witness for claim C1 at N = 3 facts with the middle pipeline
failing: 2 results plus 1 failure account for all 3 facts. -/
theorem handleAdd_partial_failure_accounting_witness :
    (handleAddStored ["f1", "f2", "f3"] [true, false, true]
        ["a", "b", "c"]).2.results.length
      + ([true, false, true] : List Bool).count false
      = (["f1", "f2", "f3"] : List String).length :=
  (handleAdd_partial_failure_accounting ["f1", "f2", "f3"]
    [true, false, true] ["a", "b", "c"]
    (by decide) (by decide) (by decide)).2.1

/-- Claim C5, counterexample: one extracted fact whose storage
succeeds.  The response body carries no `failed` key at all
(`failed = none`), not an explicit `failed: 0` as the claim requires
for every 200 response. -/
theorem handleAdd_failed_key_absent_when_zero :
    (handleAddFacts ["fact"] [true] ["id0"]).failed = none
    ∧ (handleAddFacts ["fact"] [true] ["id0"]).results.length = 1
    ∧ (none : Option Nat) ≠ some 0 := by
  refine ⟨rfl, rfl, by decide⟩

/-- Claim C5 (amended): the `failed` key is present with value 0 on the
zero-facts path; on the storage path it is present exactly when at
least one storage attempt failed, carrying the failure count, and is
omitted when all attempts succeeded. -/
theorem handleAdd_failed_key_presence
    (facts : List String) (oks : List Bool) (ids : List String)
    (hoks : oks.length = facts.length) (hids : ids.length = facts.length) :
    (facts = [] → handleAddFacts facts oks ids = AddResponseBody.mk [] (some 0))
    ∧ (facts ≠ [] →
        ((handleAddFacts facts oks ids).failed = none ↔ oks.count false = 0))
    ∧ (facts ≠ [] → 0 < oks.count false →
        (handleAddFacts facts oks ids).failed = some (oks.count false)) := by
  refine ⟨?_, ?_, ?_⟩
  · intro h0
    unfold handleAddFacts
    rw [if_pos (by simp [h0])]
  · intro hne
    obtain ⟨hres, hfail⟩ := handleAddFacts_ne_nil facts oks ids hne
    have hrs := pipelineResults_length facts oks ids hoks hids
    have hst := pipelineResults_stored_length facts oks ids hoks hids
    have hcnt := count_true_add_count_false oks
    have hfc : (pipelineResults facts oks ids).length
        - ((pipelineResults facts oks ids).filterMap (fun r => r)).length
        = oks.count false := by omega
    rw [hfail, hfc]
    rcases Nat.eq_zero_or_pos (oks.count false) with hz | hp
    · simp [hz]
    · rw [if_pos hp]
      simp
      omega
  · intro hne hp
    obtain ⟨hres, hfail⟩ := handleAddFacts_ne_nil facts oks ids hne
    have hrs := pipelineResults_length facts oks ids hoks hids
    have hst := pipelineResults_stored_length facts oks ids hoks hids
    have hcnt := count_true_add_count_false oks
    have hfc : (pipelineResults facts oks ids).length
        - ((pipelineResults facts oks ids).filterMap (fun r => r)).length
        = oks.count false := by omega
    rw [hfail, hfc, if_pos hp]

/-- Witness for the amended claim C5: the zero-facts path emits
`failed: 0`, and a storage path with one failing pipeline emits
`failed: 1`. -/
theorem handleAdd_failed_key_presence_witness :
    handleAddFacts [] [] [] = AddResponseBody.mk [] (some 0)
    ∧ (handleAddFacts ["f"] [false] ["i"]).failed
        = some (([false] : List Bool).count false) :=
  ⟨(handleAdd_failed_key_presence [] [] [] rfl rfl).1 rfl,
   (handleAdd_failed_key_presence ["f"] [false] ["i"]
      (by decide) (by decide)).2.2 (by decide) (by decide)⟩

/-- Claim C9: the payload upserted by handleAdd for a fact contains
only `memory`, `user_id` and `created_at`.  It never contains a
`run_id` or `agent_id` key, for any request - contradicting the claim
(and the repository's own tests) that supplied agent and run ids are
stored in the payload. -/
theorem addPayload_has_no_run_or_agent_id (fact userId now : String) :
    (addPayload fact userId now).lookup "run_id" = none
    ∧ (addPayload fact userId now).lookup "agent_id" = none
    ∧ (addPayload fact userId now).lookup "memory" = some fact
    ∧ (addPayload fact userId now).lookup "user_id" = some userId
    ∧ (addPayload fact userId now).lookup "created_at" = some now := by
  refine ⟨rfl, rfl, rfl, rfl, rfl⟩

/-! ### buildMustFilter (server/infrastructure.ts lines 50-55)

The filter sent to the vector backend is a `must` list of equality
predicates.  searchPoints (line 103), scrollPoints (line 145) and
countPoints (line 193) each obtain theirs from the same call
`buildMustFilter(userId, agentId, runId)`. -/

inductive FilterPred where
  | userEq (v : String) : FilterPred
  | agentEq (v : String) : FilterPred
  | runEq (v : String) : FilterPred
deriving DecidableEq, Repr

/-- JavaScript truthiness of an optional string parameter:
`undefined` and the empty string are falsy (`if (agentId)` in the
source). -/
def strTruthy : Option String → Bool
  | none => false
  | some s => !s.isEmpty

def buildMustFilter (userId : String) (agentId runId : Option String) :
    List FilterPred :=
  let must := [FilterPred.userEq userId]
  let must := if strTruthy agentId
    then must ++ [FilterPred.agentEq (agentId.getD "")] else must
  if strTruthy runId
    then must ++ [FilterPred.runEq (runId.getD "")] else must

/-- The filter used by searchPoints (infrastructure.ts line 103). -/
def searchPointsFilter (userId : String) (agentId runId : Option String) :
    List FilterPred :=
  buildMustFilter userId agentId runId

/-- The filter used by scrollPoints (infrastructure.ts line 145). -/
def scrollPointsFilter (userId : String) (agentId runId : Option String) :
    List FilterPred :=
  buildMustFilter userId agentId runId

/-- The filter used by countPoints (infrastructure.ts line 193). -/
def countPointsFilter (userId : String) (agentId runId : Option String) :
    List FilterPred :=
  buildMustFilter userId agentId runId

/-- The identity fields of a stored point's payload. -/
structure PointIdent where
  user : String
  agent : Option String
  run : Option String
deriving DecidableEq, Repr

def predMatches (p : PointIdent) : FilterPred → Bool
  | FilterPred.userEq v => p.user == v
  | FilterPred.agentEq v => p.agent == some v
  | FilterPred.runEq v => p.run == some v

/-- Conjunctive semantics of a `must` list over a point. -/
def mustMatches (must : List FilterPred) (p : PointIdent) : Bool :=
  must.all (predMatches p)

lemma isEmpty_false_of_ne (s : String) (h : s ≠ "") :
    s.isEmpty = false := by
  rw [Bool.eq_false_iff]
  intro habs
  exact h ((String.isEmpty_iff s).mp habs)

/-- Claim C2: searchPoints, scrollPoints and countPoints use one and
the same identity filter: the user_id equality comes first, agent_id
and run_id equalities are appended in that order exactly when the
corresponding argument is a non-empty string, and consequently the
three operations match the identical set of points. -/
theorem identityFilterConsistency (u : String) (a r : Option String) :
    searchPointsFilter u a r = scrollPointsFilter u a r
    ∧ scrollPointsFilter u a r = countPointsFilter u a r
    ∧ (searchPointsFilter u a r).head? = some (FilterPred.userEq u)
    ∧ (∀ p, mustMatches (searchPointsFilter u a r) p
          = mustMatches (countPointsFilter u a r) p)
    ∧ (∀ s t, s ≠ "" → t ≠ "" →
        buildMustFilter u (some s) (some t)
          = [FilterPred.userEq u, FilterPred.agentEq s, FilterPred.runEq t])
    ∧ (∀ s, s ≠ "" →
        buildMustFilter u (some s) none
          = [FilterPred.userEq u, FilterPred.agentEq s])
    ∧ (∀ t, t ≠ "" →
        buildMustFilter u none (some t)
          = [FilterPred.userEq u, FilterPred.runEq t])
    ∧ buildMustFilter u none none = [FilterPred.userEq u]
    ∧ buildMustFilter u (some "") (some "") = [FilterPred.userEq u] := by
  refine ⟨rfl, rfl, ?_, fun p => rfl, ?_, ?_, ?_, rfl, rfl⟩
  · show (buildMustFilter u a r).head? = some (FilterPred.userEq u)
    unfold buildMustFilter
    split <;> split <;> simp
  · intro s t hs ht
    have hs2 := isEmpty_false_of_ne s hs
    have ht2 := isEmpty_false_of_ne t ht
    simp [buildMustFilter, strTruthy, hs2, ht2]
  · intro s hs
    have hs2 := isEmpty_false_of_ne s hs
    simp [buildMustFilter, strTruthy, hs2]
  · intro t ht
    have ht2 := isEmpty_false_of_ne t ht
    simp [buildMustFilter, strTruthy, ht2]

/-- Witness for claim C2 at a concrete identity triple with non-empty
agent and run ids. -/
theorem identityFilterConsistency_witness :
    buildMustFilter "u1" (some "ag") (some "rn")
      = [FilterPred.userEq "u1", FilterPred.agentEq "ag",
         FilterPred.runEq "rn"] :=
  (identityFilterConsistency "u1" (some "ag") (some "rn")).2.2.2.2.1
    "ag" "rn" (by decide) (by decide)

/-! ### isValidUUID and handleDelete (server/index.ts lines 95-99 and
511-527)

The regex `^[0-9a-f]\x7b8\x7d-[0-9a-f]\x7b4\x7d-[0-9a-f]\x7b4\x7d-[0-9a-f]\x7b4\x7d-[0-9a-f]\x7b12\x7d$`
with the `i` flag: 36 characters, dashes at indices 8, 13, 18 and 23,
hexadecimal digits of either case everywhere else. -/

def isHexLower (c : Char) : Bool :=
  (('0' ≤ c) && (c ≤ '9')) || (('a' ≤ c) && (c ≤ 'f'))

def isHexUpper (c : Char) : Bool :=
  ('A' ≤ c) && (c ≤ 'F')

def isHexDigitMixed (c : Char) : Bool :=
  isHexLower c || isHexUpper c

def isValidUUID (s : String) : Bool :=
  (s.toList.length == 36) &&
  ((List.range 36).all fun i =>
    if i == 8 || i == 13 || i == 18 || i == 23
      then s.toList.getD i ' ' == '-'
      else isHexDigitMixed (s.toList.getD i ' '))

/-- Modelled from the spec: the output shape of the platform function
crypto.randomUUID, which is not repository code - per the Web Crypto
specification it is a lowercase hyphenated version-4 UUID: 36
characters, dashes at indices 8, 13, 18 and 23, the character '4' at
index 14, one of '8', '9', 'a', 'b' at index 19, and lowercase
hexadecimal digits elsewhere. -/
def isRandomUUIDShape (s : String) : Bool :=
  (s.toList.length == 36) &&
  ((List.range 36).all fun i =>
    if i == 8 || i == 13 || i == 18 || i == 23
      then s.toList.getD i ' ' == '-'
      else if i == 14 then s.toList.getD i ' ' == '4'
      else if i == 19
        then ((s.toList.getD i ' ' == '8') || (s.toList.getD i ' ' == '9')
          || (s.toList.getD i ' ' == 'a') || (s.toList.getD i ' ' == 'b'))
      else isHexLower (s.toList.getD i ' '))

lemma isValidUUID_of_shape (s : String)
    (h : isRandomUUIDShape s = true) : isValidUUID s = true := by
  unfold isRandomUUIDShape at h
  unfold isValidUUID
  rw [Bool.and_eq_true] at h ⊢
  obtain ⟨hlen, hall⟩ := h
  refine ⟨hlen, ?_⟩
  rw [List.all_eq_true] at hall ⊢
  intro i hi
  have hx := hall i hi
  by_cases hdash : (i == 8 || i == 13 || i == 18 || i == 23) = true
  · rw [if_pos hdash] at hx ⊢
    exact hx
  · rw [if_neg hdash] at hx ⊢
    by_cases h14 : (i == 14) = true
    · rw [if_pos h14] at hx
      rw [eq_of_beq hx]
      decide
    · rw [if_neg h14] at hx
      by_cases h19 : (i == 19) = true
      · rw [if_pos h19] at hx
        rw [Bool.or_eq_true, Bool.or_eq_true, Bool.or_eq_true] at hx
        rcases hx with ((h8 | h9) | ha) | hb
        · rw [eq_of_beq h8]; decide
        · rw [eq_of_beq h9]; decide
        · rw [eq_of_beq ha]; decide
        · rw [eq_of_beq hb]; decide
      · rw [if_neg h19] at hx
        unfold isHexDigitMixed
        rw [Bool.or_eq_true]
        exact Or.inl hx

inductive DeleteOutcome where
  | invalidId (msg : String) : DeleteOutcome
  | deleted : DeleteOutcome
  | backendFail (msg : String) : DeleteOutcome
deriving DecidableEq, Repr

/-- The 400 error message of handleDelete (index.ts line 513). -/
def invalidUUIDMessage : String := "Invalid memory ID: must be a valid UUID"

def deleteStatus : DeleteOutcome → Nat
  | DeleteOutcome.invalidId _ => 400
  | DeleteOutcome.deleted => 200
  | DeleteOutcome.backendFail _ => 500

/-- handleDelete (index.ts lines 511-527): the UUID gate runs before
anything else; only a valid id reaches the backend.  The second
component records whether deletePoint was invoked. -/
def handleDelete (idArg : String)
    (deletePoint : String → Except String Unit) : DeleteOutcome × Bool :=
  if isValidUUID idArg then
    match deletePoint idArg with
    | Except.ok _ => (DeleteOutcome.deleted, true)
    | Except.error _ => (DeleteOutcome.backendFail "Delete failed", true)
  else (DeleteOutcome.invalidId invalidUUIDMessage, false)

/-- Claim C8: a path identifier that is not a syntactically well-formed
UUID is rejected with a 400 whose message contains "UUID", without the
backend delete ever being invoked; a well-formed id is forwarded to the
backend, and a successful backend delete yields the success response. -/
theorem handleDelete_uuid_gate (idArg : String)
    (deletePoint : String → Except String Unit) :
    (isValidUUID idArg = false →
        handleDelete idArg deletePoint
          = (DeleteOutcome.invalidId invalidUUIDMessage, false))
    ∧ (isValidUUID idArg = true → (handleDelete idArg deletePoint).2 = true)
    ∧ (isValidUUID idArg = true → deletePoint idArg = Except.ok () →
        (handleDelete idArg deletePoint).1 = DeleteOutcome.deleted)
    ∧ deleteStatus (DeleteOutcome.invalidId invalidUUIDMessage) = 400
    ∧ List.IsInfix "UUID".toList invalidUUIDMessage.toList := by
  refine ⟨?_, ?_, ?_, rfl, by decide⟩
  · intro hf
    unfold handleDelete
    rw [if_neg (by simp [hf])]
  · intro ht
    unfold handleDelete
    rw [if_pos ht]
    cases hdp : deletePoint idArg <;> rfl
  · intro ht hok
    unfold handleDelete
    rw [if_pos ht, hok]

/-- Witness for claim C8: "not-a-uuid" is rejected without a backend
call, and a well-formed UUID is deleted. -/
theorem handleDelete_uuid_gate_witness :
    handleDelete "not-a-uuid" (fun _ => Except.ok ())
        = (DeleteOutcome.invalidId invalidUUIDMessage, false)
    ∧ (handleDelete "550e8400-e29b-41d4-a716-446655440000"
        (fun _ => Except.ok ())).1 = DeleteOutcome.deleted :=
  ⟨(handleDelete_uuid_gate "not-a-uuid" (fun _ => Except.ok ())).1
      (by decide),
   (handleDelete_uuid_gate "550e8400-e29b-41d4-a716-446655440000"
      (fun _ => Except.ok ())).2.2.1 (by decide) rfl⟩

lemma pipelineResults_some_mem (facts : List String) (oks : List Bool)
    (ids : List String) (res : AddResult) :
    some res ∈ pipelineResults facts oks ids → res.id ∈ ids := by
  induction facts generalizing oks ids with
  | nil => intro h; simp [pipelineResults] at h
  | cons f fs ih =>
      intro h
      cases oks with
      | nil => simp [pipelineResults] at h
      | cons o os =>
          cases ids with
          | nil => simp [pipelineResults] at h
          | cons pid is =>
              simp only [pipelineResults, List.mem_cons] at h
              rcases h with h | h
              · cases o with
                | true =>
                    simp at h
                    simp [h]
                | false => simp at h
              · exact List.mem_cons_of_mem _ (ih os is h)

/-- Claim C10: every id in a successful add result comes from the ids
generated during the request; when those have the crypto.randomUUID
shape, each stored result's id satisfies isValidUUID, so the delete
handler invoked on it always reaches the backend and never produces
the 400 invalid-UUID rejection. -/
theorem addResults_pass_delete_gate
    (facts : List String) (oks : List Bool) (ids : List String)
    (deletePoint : String → Except String Unit)
    (hids : ∀ pid ∈ ids, isRandomUUIDShape pid = true) :
    ∀ res ∈ (handleAddFacts facts oks ids).results,
      isValidUUID res.id = true
      ∧ (handleDelete res.id deletePoint).2 = true
      ∧ deleteStatus (handleDelete res.id deletePoint).1 ≠ 400
      ∧ (handleDelete res.id deletePoint).1
          ≠ DeleteOutcome.invalidId invalidUUIDMessage := by
  intro res hres
  have hid : res.id ∈ ids := by
    by_cases hne : facts = []
    · subst hne
      unfold handleAddFacts at hres
      rw [if_pos (by simp)] at hres
      simp at hres
    · obtain ⟨hresEq, _⟩ := handleAddFacts_ne_nil facts oks ids hne
      rw [hresEq, List.mem_filterMap] at hres
      obtain ⟨a, ha, hEq⟩ := hres
      exact pipelineResults_some_mem facts oks ids res (hEq ▸ ha)
  have hvalid : isValidUUID res.id = true :=
    isValidUUID_of_shape _ (hids _ hid)
  refine ⟨hvalid, ?_, ?_, ?_⟩
  · unfold handleDelete
    rw [if_pos hvalid]
    cases hdp : deletePoint res.id <;> rfl
  · unfold handleDelete
    rw [if_pos hvalid]
    cases hdp : deletePoint res.id <;> simp [deleteStatus]
  · unfold handleDelete
    rw [if_pos hvalid]
    cases hdp : deletePoint res.id <;> simp

/-- Witness for claim C10 at a one-fact add whose generated id is a
concrete version-4 UUID. -/
theorem addResults_pass_delete_gate_witness :
    isValidUUID
      (AddResult.mk "550e8400-e29b-41d4-a716-446655440000" "f" "ADD").id
      = true :=
  (addResults_pass_delete_gate ["f"] [true]
    ["550e8400-e29b-41d4-a716-446655440000"] (fun _ => Except.ok ())
    (by decide)
    (AddResult.mk "550e8400-e29b-41d4-a716-446655440000" "f" "ADD")
    (by decide)).1

/-! ### handleSearch (server/index.ts lines 49-53 and 465-509)

SearchRequestSchema requires `query` (a string of at most 1000
characters), `user_id` (a string) and optionally `limit` (a number
between 1 and 100); any other body decodes to a ValidationError.  Note
the schema places no minimum length on `query`.  The two external
calls (embed, searchPoints) are oracles; the trace records the status,
whether each oracle was invoked, and the limit forwarded to the vector
search. -/

structure SearchReq where
  query : String
  user_id : String
  limit : Option Int
deriving DecidableEq, Repr

def getField (fields : List (String × Json)) (k : String) : Option Json :=
  (fields.find? (fun kv => kv.1 == k)).map (fun kv => kv.2)

def decodeSearchRequest : Json → Option SearchReq
  | Json.obj fields =>
      match getField fields "query", getField fields "user_id" with
      | some (Json.str q), some (Json.str u) =>
          if q.length ≤ 1000 then
            match getField fields "limit" with
            | none => some (SearchReq.mk q u none)
            | some (Json.num n) =>
                if 1 ≤ n ∧ n ≤ 100 then some (SearchReq.mk q u (some n))
                else none
            | some _ => none
          else none
      | _, _ => none
  | _ => none

structure SearchTrace where
  status : Nat
  embedCalled : Bool
  searchCalled : Bool
  limitUsed : Option Int
deriving DecidableEq, Repr

/-- handleSearch: parse and validate the body (400 on failure, before
any external call), default the limit to 5, embed the query (failure
gives 500), then search (failure gives 500, success 200). -/
def handleSearch (bodyParse : Option Json)
    (embed : String → Except String (List Int))
    (searchPts : List Int → String → Int → Except String Unit) :
    SearchTrace :=
  match bodyParse with
  | none => SearchTrace.mk 400 false false none
  | some body =>
      match decodeSearchRequest body with
      | none => SearchTrace.mk 400 false false none
      | some req =>
          match embed req.query with
          | Except.error _ => SearchTrace.mk 500 true false none
          | Except.ok vec =>
              match searchPts vec req.user_id (req.limit.getD 5) with
              | Except.error _ =>
                  SearchTrace.mk 500 true true (some (req.limit.getD 5))
              | Except.ok _ =>
                  SearchTrace.mk 200 true true (some (req.limit.getD 5))

/-- A body with an empty query and a user id. -/
def emptyQueryBody : Json :=
  Json.obj [("query", Json.str ""), ("user_id", Json.str "u1")]

/-- Claim C6, counterexample: a body with an empty query passes
validation (the schema has no minimum length) and, with succeeding
downstream calls, the handler answers 200, not the claimed 400. -/
theorem handleSearch_empty_query_not_rejected :
    decodeSearchRequest emptyQueryBody = some (SearchReq.mk "" "u1" none)
    ∧ (handleSearch (some emptyQueryBody) (fun _ => Except.ok [])
        (fun _ _ _ => Except.ok ())).status = 200
    ∧ (200 : Nat) ≠ 400 := by
  refine ⟨rfl, rfl, by decide⟩

/-- Claim C6 (amended): handleSearch returns 400 exactly when the body
fails validation - a missing or non-string query, a query longer than
1000, a missing user_id, or a limit outside 1..100 - while an EMPTY
query is accepted; validation failure short-circuits before the
embedding or the vector search is invoked; a missing limit is
forwarded to the vector search as 5; and a downstream embedding or
storage failure yields 500. -/
theorem handleSearch_validation (bodyParse : Option Json)
    (embed : String → Except String (List Int))
    (searchPts : List Int → String → Int → Except String Unit) :
    ((handleSearch bodyParse embed searchPts).status = 400
        ↔ bodyParse.bind decodeSearchRequest = none)
    ∧ (bodyParse.bind decodeSearchRequest = none →
        (handleSearch bodyParse embed searchPts).embedCalled = false
        ∧ (handleSearch bodyParse embed searchPts).searchCalled = false)
    ∧ (∀ req msg, bodyParse.bind decodeSearchRequest = some req →
        embed req.query = Except.error msg →
        (handleSearch bodyParse embed searchPts).status = 500)
    ∧ (∀ req vec msg, bodyParse.bind decodeSearchRequest = some req →
        embed req.query = Except.ok vec →
        searchPts vec req.user_id (req.limit.getD 5) = Except.error msg →
        (handleSearch bodyParse embed searchPts).status = 500)
    ∧ (∀ req vec, bodyParse.bind decodeSearchRequest = some req →
        embed req.query = Except.ok vec →
        searchPts vec req.user_id (req.limit.getD 5) = Except.ok () →
        (handleSearch bodyParse embed searchPts).status = 200
        ∧ (handleSearch bodyParse embed searchPts).limitUsed
            = some (req.limit.getD 5))
    ∧ (∀ req, bodyParse.bind decodeSearchRequest = some req →
        req.limit = none →
        (handleSearch bodyParse embed searchPts).searchCalled = true →
        (handleSearch bodyParse embed searchPts).limitUsed = some 5)
    ∧ (∀ fields, getField fields "query" = none →
        decodeSearchRequest (Json.obj fields) = none)
    ∧ (∀ fields q u, getField fields "query" = some (Json.str q) →
        getField fields "user_id" = some (Json.str u) →
        q.length > 1000 →
        decodeSearchRequest (Json.obj fields) = none)
    ∧ (∀ fields q u n, getField fields "query" = some (Json.str q) →
        getField fields "user_id" = some (Json.str u) →
        q.length ≤ 1000 →
        getField fields "limit" = some (Json.num n) →
        (n < 1 ∨ 100 < n) →
        decodeSearchRequest (Json.obj fields) = none)
    ∧ (∀ q u, q.length ≤ 1000 →
        decodeSearchRequest
            (Json.obj [("query", Json.str q), ("user_id", Json.str u)])
          = some (SearchReq.mk q u none)) := by
  refine ⟨?_, ?_, ?_, ?_, ?_, ?_, ?_, ?_, ?_, ?_⟩
  · cases bodyParse with
    | none => simp [handleSearch]
    | some body =>
        cases hdec : decodeSearchRequest body with
        | none => simp [handleSearch, hdec]
        | some req =>
            cases hemb : embed req.query with
            | error e => simp [handleSearch, hdec, hemb]
            | ok vec =>
                cases hsp : searchPts vec req.user_id (req.limit.getD 5) <;>
                  simp [handleSearch, hdec, hemb, hsp]
  · intro hdec
    cases bodyParse with
    | none => simp [handleSearch]
    | some body =>
        simp only [Option.some_bind] at hdec
        simp [handleSearch, hdec]
  · intro req msg hdec hemb
    cases bodyParse with
    | none => simp at hdec
    | some body =>
        simp only [Option.some_bind] at hdec
        simp [handleSearch, hdec, hemb]
  · intro req vec msg hdec hemb hsp
    cases bodyParse with
    | none => simp at hdec
    | some body =>
        simp only [Option.some_bind] at hdec
        simp [handleSearch, hdec, hemb, hsp]
  · intro req vec hdec hemb hsp
    cases bodyParse with
    | none => simp at hdec
    | some body =>
        simp only [Option.some_bind] at hdec
        exact ⟨by simp [handleSearch, hdec, hemb, hsp],
               by simp [handleSearch, hdec, hemb, hsp]⟩
  · intro req hdec hlim hcalled
    cases bodyParse with
    | none => simp at hdec
    | some body =>
        simp only [Option.some_bind] at hdec
        cases hemb : embed req.query with
        | error e => simp [handleSearch, hdec, hemb] at hcalled
        | ok vec =>
            simp only [handleSearch, hdec, hemb, hlim, Option.getD_none]
            cases searchPts vec req.user_id 5 <;> rfl
  · intro fields hq
    cases hu : getField fields "user_id" <;>
      simp [decodeSearchRequest, hq, hu]
  · intro fields q u hq hu hlen
    simp [decodeSearchRequest, hq, hu, Nat.not_le.mpr hlen]
  · intro fields q u n hq hu hlen hl hout
    have : ¬(1 ≤ n ∧ n ≤ 100) := by omega
    simp [decodeSearchRequest, hq, hu, hlen, hl, this]
  · intro q u hq
    show (if q.length ≤ 1000 then some (SearchReq.mk q u none) else none)
        = some (SearchReq.mk q u none)
    rw [if_pos hq]

/-- A well-formed search body with no limit field. -/
def searchBody1 : Json :=
  Json.obj [("query", Json.str "hi"), ("user_id", Json.str "u1")]

/-- Witness for the amended claim C6: a valid body with no limit is
answered 200 with limit 5 forwarded to the search, and a missing body
is rejected 400. -/
theorem handleSearch_validation_witness :
    (handleSearch (some searchBody1) (fun _ => Except.ok [1])
        (fun _ _ _ => Except.ok ())).status = 200
    ∧ (handleSearch (some searchBody1) (fun _ => Except.ok [1])
        (fun _ _ _ => Except.ok ())).limitUsed = some 5
    ∧ (handleSearch none (fun _ => Except.ok [1])
        (fun _ _ _ => Except.ok ())).status = 400 := by
  have h200 := (handleSearch_validation (some searchBody1)
      (fun _ => Except.ok [1]) (fun _ _ _ => Except.ok ())).2.2.2.2.1
      (SearchReq.mk "hi" "u1" none) [1] rfl rfl rfl
  have h400 := (handleSearch_validation none
      (fun _ => Except.ok [1]) (fun _ _ _ => Except.ok ())).1.mpr rfl
  exact ⟨h200.1, h200.2, h400⟩

/-! ### scrollPoints pagination (server/infrastructure.ts lines 144-190)

The source loops `loop(offset, acc, page)` starting from
`loop(null, [], 0)`, guarding with `if (page > 100)` (warn and return
the accumulated partial set), otherwise fetching one page at the
current offset, appending its points, stopping when the returned
`next_page_offset` is null, and recursing with `page + 1` otherwise.
Here the loop is indexed by `remaining = 101 - page`, so the guard
`page > 100` is `remaining = 0`; the initial call passes 101.  The
backend is an oracle from the offset sent (`none` on the first
request) to the page it answers.  The second component of the result
counts the page requests actually issued. -/

structure ScrollPage where
  points : List String
  nextOffset : Option Nat

def scrollLoop (backend : Option Nat → ScrollPage) :
    Nat → Option Nat → List String → List String × Nat
  | 0, _, acc => (acc, 0)
  | remaining + 1, offset, acc =>
      let p := backend offset
      match p.nextOffset with
      | none => (acc ++ p.points, 1)
      | some o =>
          let r := scrollLoop backend remaining (some o) (acc ++ p.points)
          (r.1, r.2 + 1)

def scrollPoints (backend : Option Nat → ScrollPage) : List String × Nat :=
  scrollLoop backend 101 none []

/-- The expected enumeration: the concatenation of the pages reached by
following the offset chain from the first request, truncated to the
given number of pages. -/
def chainPoints (backend : Option Nat → ScrollPage) :
    Nat → Option Nat → List String
  | 0, _ => []
  | remaining + 1, offset =>
      (backend offset).points ++
        (match (backend offset).nextOffset with
         | none => []
         | some o => chainPoints backend remaining (some o))

lemma scrollLoop_acc (backend : Option Nat → ScrollPage) :
    ∀ n off acc, (scrollLoop backend n off acc).1
      = acc ++ (scrollLoop backend n off []).1 := by
  intro n
  induction n with
  | zero => intro off acc; simp [scrollLoop]
  | succ m ih =>
      intro off acc
      cases h : (backend off).nextOffset with
      | none => simp [scrollLoop, h]
      | some o =>
          simp only [scrollLoop, h]
          rw [ih (some o) (acc ++ (backend off).points),
            ih (some o) ([] ++ (backend off).points)]
          simp

lemma scrollLoop_pages_le (backend : Option Nat → ScrollPage) :
    ∀ n off acc, (scrollLoop backend n off acc).2 ≤ n := by
  intro n
  induction n with
  | zero => intro off acc; simp [scrollLoop]
  | succ m ih =>
      intro off acc
      cases h : (backend off).nextOffset with
      | none => simp [scrollLoop, h]
      | some o =>
          simp only [scrollLoop, h]
          have := ih (some o) (acc ++ (backend off).points)
          omega

lemma scrollLoop_pages_eq (backend : Option Nat → ScrollPage)
    (hne : ∀ o, (backend o).nextOffset ≠ none) :
    ∀ n off acc, (scrollLoop backend n off acc).2 = n := by
  intro n
  induction n with
  | zero => intro off acc; simp [scrollLoop]
  | succ m ih =>
      intro off acc
      cases h : (backend off).nextOffset with
      | none => exact absurd h (hne off)
      | some o =>
          simp only [scrollLoop, h]
          rw [ih (some o) (acc ++ (backend off).points)]

lemma scrollLoop_chain (backend : Option Nat → ScrollPage) :
    ∀ n off, (scrollLoop backend n off []).1 = chainPoints backend n off := by
  intro n
  induction n with
  | zero => intro off; simp [scrollLoop, chainPoints]
  | succ m ih =>
      intro off
      cases h : (backend off).nextOffset with
      | none => simp [scrollLoop, chainPoints, h]
      | some o =>
          simp only [scrollLoop, chainPoints, h]
          rw [scrollLoop_acc backend m (some o) ([] ++ (backend off).points),
            ih (some o)]
          simp

/-- Claim C7, counterexample: against a backend that always returns a
further offset, scrollPoints issues 101 page requests before the guard
fires - not the at-most-100 pages the claim states. -/
theorem scrollPoints_fetches_101_pages :
    (scrollPoints (fun _ => ScrollPage.mk ["m"] (some 0))).2 = 101
    ∧ ¬((scrollPoints (fun _ => ScrollPage.mk ["m"] (some 0))).2 ≤ 100) := by
  have h : (scrollPoints (fun _ => ScrollPage.mk ["m"] (some 0))).2 = 101 := by
    have := scrollLoop_pages_eq (fun _ => ScrollPage.mk ["m"] (some 0))
      (fun o => by simp) 101 none []
    exact this
  exact ⟨h, by rw [h]; omega⟩

/-- Claim C7 (amended): scrollPoints terminates on every sequence of
backend responses, follows the returned offsets, stops at a null
offset, and caps iteration at 101 page requests (the guard stops the
loop once its page counter exceeds 100), returning the partial
accumulated set - the pages reached along the offset chain - rather
than looping forever. -/
theorem scrollPoints_pagination (backend : Option Nat → ScrollPage) :
    (scrollPoints backend).1 = chainPoints backend 101 none
    ∧ (scrollPoints backend).2 ≤ 101
    ∧ ((∀ o, (backend o).nextOffset ≠ none) → (scrollPoints backend).2 = 101)
    ∧ ((backend none).nextOffset = none →
        scrollPoints backend = ((backend none).points, 1)) := by
  refine ⟨scrollLoop_chain backend 101 none,
    scrollLoop_pages_le backend 101 none [],
    fun hne => scrollLoop_pages_eq backend hne 101 none [],
    fun h => ?_⟩
  unfold scrollPoints
  simp [scrollLoop, h]

/-- Witness for the amended claim C7: a single-page backend is drained
in one request, and a backend that never ends its pagination is cut
off after 101 requests. -/
theorem scrollPoints_pagination_witness :
    scrollPoints (fun _ => ScrollPage.mk ["x"] none) = (["x"], 1)
    ∧ (scrollPoints (fun _ => ScrollPage.mk ["m"] (some 0))).2 = 101 :=
  ⟨(scrollPoints_pagination (fun _ => ScrollPage.mk ["x"] none)).2.2.2 rfl,
   (scrollPoints_pagination (fun _ => ScrollPage.mk ["m"] (some 0))).2.2.1
      (fun o => by simp)⟩

end OpenclawMem0
